import Mathlib

/-!
Verification of the XSP v16 paper-trading decision engine.

Numbers are modelled as rationals (`ℚ`): every JavaScript number that the
engine manipulates is finite in the scenarios representable here, so the
`Number.isFinite` guards of the source become vacuously true and only the
sign/threshold parts of each guard remain.  Timestamps (milliseconds) are
also rationals, matching the single JS number type.  Fallible external
calls (market data, storage) become explicit parameters or `Except`
results, and the engine's effectful procedures become pure functions
returning a description of the state changes they perform.
-/

namespace XspV16

/-- One hour in milliseconds (`HOUR_MS` in `utils/time.ts`). -/
def HOUR_MS : ℚ := 60 * 60 * 1000

/-! ### Cost model (`strategy/v16/math.ts`) -/

/-- Source function `shortUnleveredReturnPct(entry, exit)` from `math.ts`: percentage gain of a
short position, 0 when either price fails the positivity/finiteness guard. -/
def shortUnleveredReturnPct (entryPrice exitPrice : ℚ) : ℚ :=
  if entryPrice ≤ 0 ∨ exitPrice ≤ 0 then 0
  else (entryPrice - exitPrice) / entryPrice * 100

/-- Source function `leveragedReturnPct` from `math.ts`. -/
def leveragedReturnPct (unleveredReturnPct leverage : ℚ) : ℚ :=
  unleveredReturnPct * leverage

/-- Source function `qtyFromNotional` from `math.ts`. -/
def qtyFromNotional (notionalUsd entryPrice : ℚ) : ℚ :=
  if notionalUsd ≤ 0 ∨ entryPrice ≤ 0 then 0
  else notionalUsd / entryPrice

/-- Source function `pnlUsdFromUnleveredPct` from `math.ts`. -/
def pnlUsdFromUnleveredPct (marginUsd leverage unleveredReturnPctValue : ℚ) : ℚ :=
  marginUsd * leverage * (unleveredReturnPctValue / 100)

/-- Source function `liquidationThresholdUnleveredPct` from `math.ts`: the unlevered loss
percentage at which margin is exhausted for a short. -/
def liquidationThresholdUnleveredPct (leverage : ℚ) : ℚ :=
  if leverage ≤ 0 then -100 else -(100 / leverage)

end XspV16

namespace XspV16

/-! ### Claims about the cost model -/

/-- C8 counterexample: the threshold is NOT "less negative as leverage
decreases".  Decreasing leverage from 2 to 1 moves the threshold from -50 to
-100, i.e. strictly more negative. -/
theorem liq_threshold_decreasing_leverage_cex :
    liquidationThresholdUnleveredPct 1 = -100 ∧
    liquidationThresholdUnleveredPct 2 = -50 ∧
    liquidationThresholdUnleveredPct 1 < liquidationThresholdUnleveredPct 2 := by
  refine ⟨?_, ?_, ?_⟩ <;> norm_num [liquidationThresholdUnleveredPct]

/-- C8 (amended): `liquidationThresholdUnleveredPct` is monotonically less
negative as leverage increases (strictly increasing on positive leverage),
and at leverage = 1 it equals -100. -/
theorem liq_threshold_monotone_in_leverage (l₁ l₂ : ℚ) (h₁ : 0 < l₁) (h₂ : l₁ < l₂) :
    liquidationThresholdUnleveredPct l₁ < liquidationThresholdUnleveredPct l₂ ∧
    liquidationThresholdUnleveredPct 1 = -100 := by
  constructor
  · have hl₂ : 0 < l₂ := h₁.trans h₂
    rw [liquidationThresholdUnleveredPct, liquidationThresholdUnleveredPct,
      if_neg (not_le.mpr h₁), if_neg (not_le.mpr hl₂)]
    have : (100 : ℚ) / l₂ < 100 / l₁ :=
      div_lt_div_of_pos_left (by norm_num) h₁ h₂
    linarith
  · norm_num [liquidationThresholdUnleveredPct]

/-- C8 witness: the amended monotonicity at leverage 1 < 2. -/
theorem liq_threshold_monotone_in_leverage_witness :
    (0 : ℚ) < 1 ∧ (1 : ℚ) < 2 ∧
    (liquidationThresholdUnleveredPct 1 < liquidationThresholdUnleveredPct 2 ∧
      liquidationThresholdUnleveredPct 1 = -100) :=
  ⟨by norm_num, by norm_num,
    liq_threshold_monotone_in_leverage 1 2 (by norm_num) (by norm_num)⟩

/-- C9 counterexample: at entry = 1 and exit = 0 the exit is below the entry,
yet the guarded return is 0, not positive — so "positive iff exit < entry"
fails without a positivity restriction on the prices. -/
theorem short_return_zero_exit_cex :
    (0 : ℚ) < 1 ∧ shortUnleveredReturnPct 1 0 = 0 ∧
    ¬ (0 < shortUnleveredReturnPct 1 0) := by
  refine ⟨by norm_num, ?_, ?_⟩ <;> norm_num [shortUnleveredReturnPct]

/-- C9 (amended): `shortUnleveredReturnPct e e = 0` for every price `e`, and
for positive entry/exit prices the return is positive iff exit < entry
(for non-positive prices the guard returns 0 instead). -/
theorem short_return_sign_characterization (entryPrice exitPrice : ℚ)
    (hen : 0 < entryPrice) (hex : 0 < exitPrice) :
    (∀ e : ℚ, shortUnleveredReturnPct e e = 0) ∧
    (0 < shortUnleveredReturnPct entryPrice exitPrice ↔ exitPrice < entryPrice) := by
  constructor
  · intro e
    rw [shortUnleveredReturnPct]
    split
    · rfl
    · rw [sub_self, zero_div, zero_mul]
  · rw [shortUnleveredReturnPct, if_neg (by push_neg; exact ⟨hen, hex⟩)]
    constructor
    · intro h
      by_contra hlt
      push_neg at hlt
      have hnum : entryPrice - exitPrice ≤ 0 := by linarith
      have : (entryPrice - exitPrice) / entryPrice * 100 ≤ 0 := by
        have := div_nonpos_of_nonpos_of_nonneg hnum hen.le
        linarith
      linarith
    · intro h
      have hnum : 0 < entryPrice - exitPrice := by linarith
      have := div_pos hnum hen
      linarith

/-- C9 witness: amended characterization at entry 4, exit 3. -/
theorem short_return_sign_characterization_witness :
    (0 : ℚ) < 4 ∧ (0 : ℚ) < 3 ∧
    ((∀ e : ℚ, shortUnleveredReturnPct e e = 0) ∧
      (0 < shortUnleveredReturnPct 4 3 ↔ (3 : ℚ) < 4)) :=
  ⟨by norm_num, by norm_num,
    short_return_sign_characterization 4 3 (by norm_num) (by norm_num)⟩

/-! ### Data model (`domain/types.ts`, `config/schema.ts`) -/

/-- Exit reasons used by the engine (`ExitReason` in `domain/types.ts`). -/
inductive ExitReason
  | LIQ
  | TP
  | DELTA
  | TIME
  | REPLACE
deriving DecidableEq, Repr

/-- One sentiment sell-ratio sample (`SellRatioPoint`); `sellRatio` may be null. -/
structure RatioPoint where
  tsMs : ℚ
  sellRatio : Option ℚ
deriving DecidableEq, Repr

/-- One hourly candle (`HourKline`).  The source field `open` is a Lean
keyword, so it is named `openPrice` here. -/
structure Kline where
  openTimeMs : ℚ
  openPrice : ℚ
  high : ℚ
  low : ℚ
  close : ℚ
  volume : ℚ
deriving DecidableEq, Repr

/-- The per-trigger exit enable flags declared in `FileConfigSchema.strategy.exits`. -/
structure ExitsCfg where
  tpEnabled : Bool
  deltaEnabled : Bool
  liqEnabled : Bool
  timeEnabled : Bool
deriving DecidableEq, Repr

/-- The `replaceThresholdBasis` enum of the strategy config. -/
inductive ReplaceBasis
  | unlevered
  | levered
deriving DecidableEq, Repr

/-- The strategy section of `AppConfig` (fields the engine core reads). -/
structure StrategyCfg where
  sellRatioMax : ℚ
  minHourVolume : ℚ
  leverage : ℚ
  takeProfitPct : ℚ
  deltaExitThreshold : ℚ
  maxHoldHours : ℚ
  maxOpenPositions : ℚ
  preventDuplicateSymbols : Bool
  replaceThresholdPct : ℚ
  replaceThresholdBasis : ReplaceBasis
  entryMarginFraction : ℚ
  entryMarginCapUsd : ℚ
  minActiveCashUsd : ℚ
  reconcileDowntimeExits : Bool
  downtimeLookbackHoursMax : ℚ
  exits : ExitsCfg
deriving DecidableEq, Repr

/-- An open position row (`OpenPositionRow`), with the fields the engine
reads; the `latest*` mark fields are null before the first mark-to-market. -/
structure OpenPositionRow where
  symbol : String
  entryTsMs : ℚ
  entryPrice : ℚ
  entrySellRatio : ℚ
  leverage : ℚ
  marginUsd : ℚ
  notionalUsd : ℚ
  takeProfitPct : ℚ
  deltaExitThreshold : ℚ
  replaceThresholdPct : ℚ
  latestMarkPrice : Option ℚ
  latestUnleveredReturnPct : Option ℚ
  latestLeveragedReturnPct : Option ℚ
deriving DecidableEq, Repr

/-! ### Live exit evaluation (`decideExit`, main.ts) -/

/-- The trailing time-exit check of `decideExit`: fires only when
`maxHoldHours > 0` and the hold time reaches that many hours. -/
def decideTimeExit (cfg : StrategyCfg) (pos : OpenPositionRow) (nowTs : ℚ) :
    Option ExitReason :=
  if 0 < cfg.maxHoldHours then
    if cfg.maxHoldHours * HOUR_MS ≤ nowTs - pos.entryTsMs then some .TIME else none
  else none

/-- Source function `decideExit` from the engine: fixed-precedence trigger evaluation on the
live path.  `ratios` is the result of `getAccountRatio1h(symbol, 2)`; the
code reads `ratios.at(-1)?.sellRatio ?? null`, i.e. the last sample's
possibly-null sell ratio. -/
def decideExit (cfg : StrategyCfg) (pos : OpenPositionRow) (unleveredPct : ℚ)
    (nowTs : ℚ) (ratios : List RatioPoint) : Option ExitReason :=
  if unleveredPct ≤ liquidationThresholdUnleveredPct pos.leverage then some .LIQ
  else if pos.takeProfitPct * 100 ≤ unleveredPct then some .TP
  else
    match ratios.getLast?.bind RatioPoint.sellRatio with
    | some latest =>
        if pos.deltaExitThreshold ≤ latest - pos.entrySellRatio then some .DELTA
        else decideTimeExit cfg pos nowTs
    | none => decideTimeExit cfg pos nowTs

/-- The delta-exit condition read off the fetched ratio list: the latest
sample's sell ratio exists (non-null) and its delta versus the entry sell
ratio reaches the position's threshold. -/
def deltaCond (pos : OpenPositionRow) (ratios : List RatioPoint) : Prop :=
  ∃ l, ratios.getLast?.bind RatioPoint.sellRatio = some l ∧
    pos.deltaExitThreshold ≤ l - pos.entrySellRatio

instance (pos : OpenPositionRow) (ratios : List RatioPoint) :
    Decidable (deltaCond pos ratios) := by
  unfold deltaCond
  cases ratios.getLast?.bind RatioPoint.sellRatio with
  | none => exact .isFalse (by simp)
  | some l => exact decidable_of_iff (pos.deltaExitThreshold ≤ l - pos.entrySellRatio) (by simp)

/-- Helper: full case characterization of `decideExit`, shared by the
claim-level theorems. -/
theorem decideExit_cases (cfg : StrategyCfg) (pos : OpenPositionRow)
    (unleveredPct nowTs : ℚ) (ratios : List RatioPoint) :
    (unleveredPct ≤ liquidationThresholdUnleveredPct pos.leverage →
      decideExit cfg pos unleveredPct nowTs ratios = some .LIQ) ∧
    (¬ unleveredPct ≤ liquidationThresholdUnleveredPct pos.leverage →
      pos.takeProfitPct * 100 ≤ unleveredPct →
      decideExit cfg pos unleveredPct nowTs ratios = some .TP) ∧
    (¬ unleveredPct ≤ liquidationThresholdUnleveredPct pos.leverage →
      ¬ pos.takeProfitPct * 100 ≤ unleveredPct →
      deltaCond pos ratios →
      decideExit cfg pos unleveredPct nowTs ratios = some .DELTA) ∧
    (¬ unleveredPct ≤ liquidationThresholdUnleveredPct pos.leverage →
      ¬ pos.takeProfitPct * 100 ≤ unleveredPct →
      ¬ deltaCond pos ratios →
      0 < cfg.maxHoldHours →
      cfg.maxHoldHours * HOUR_MS ≤ nowTs - pos.entryTsMs →
      decideExit cfg pos unleveredPct nowTs ratios = some .TIME) ∧
    (¬ unleveredPct ≤ liquidationThresholdUnleveredPct pos.leverage →
      ¬ pos.takeProfitPct * 100 ≤ unleveredPct →
      ¬ deltaCond pos ratios →
      ¬ (0 < cfg.maxHoldHours ∧ cfg.maxHoldHours * HOUR_MS ≤ nowTs - pos.entryTsMs) →
      decideExit cfg pos unleveredPct nowTs ratios = none) := by
  unfold decideExit decideTimeExit deltaCond
  cases hlast : ratios.getLast?.bind RatioPoint.sellRatio with
  | none =>
      refine ⟨fun h => by simp [h], fun h1 h2 => by simp [h1, h2], ?_, ?_, ?_⟩
      · rintro _ _ ⟨l, hl, _⟩
        simp at hl
      · intro h1 h2 _ h4 h5
        simp [h1, h2, h4, h5]
      · intro h1 h2 _ h4
        rcases Classical.em (0 < cfg.maxHoldHours) with hm | hm
        · have : ¬ cfg.maxHoldHours * HOUR_MS ≤ nowTs - pos.entryTsMs := fun hc => h4 ⟨hm, hc⟩
          simp [h1, h2, hm, this]
        · simp [h1, h2, hm]
  | some l =>
      refine ⟨fun h => by simp [h], fun h1 h2 => by simp [h1, h2], ?_, ?_, ?_⟩
      · rintro h1 h2 ⟨l', hl', hd⟩
        injection hl' with hl'
        subst hl'
        simp [h1, h2, hd]
      · intro h1 h2 h3 h4 h5
        have hd : ¬ pos.deltaExitThreshold ≤ l - pos.entrySellRatio := fun hc =>
          h3 ⟨l, rfl, hc⟩
        simp [h1, h2, hd, h4, h5]
      · intro h1 h2 h3 h4
        have hd : ¬ pos.deltaExitThreshold ≤ l - pos.entrySellRatio := fun hc =>
          h3 ⟨l, rfl, hc⟩
        rcases Classical.em (0 < cfg.maxHoldHours) with hm | hm
        · have : ¬ cfg.maxHoldHours * HOUR_MS ≤ nowTs - pos.entryTsMs := fun hc => h4 ⟨hm, hc⟩
          simp [h1, h2, hd, hm, this]
        · simp [h1, h2, hd, hm]

/-- A sample strategy configuration used to instantiate theorems with
hypotheses at concrete inputs. -/
def sampleCfg : StrategyCfg where
  sellRatioMax := 6/10
  minHourVolume := 1000
  leverage := 5
  takeProfitPct := 1/10
  deltaExitThreshold := 1/10
  maxHoldHours := 0
  maxOpenPositions := 5
  preventDuplicateSymbols := true
  replaceThresholdPct := 2/10
  replaceThresholdBasis := .unlevered
  entryMarginFraction := 1/10
  entryMarginCapUsd := 500
  minActiveCashUsd := 50
  reconcileDowntimeExits := true
  downtimeLookbackHoursMax := 72
  exits := ⟨true, true, true, false⟩

/-- A sample open position used to instantiate theorems with hypotheses at
concrete inputs. -/
def samplePos : OpenPositionRow where
  symbol := "BTCUSDT"
  entryTsMs := 0
  entryPrice := 100
  entrySellRatio := 1/2
  leverage := 5
  marginUsd := 100
  notionalUsd := 500
  takeProfitPct := 1/10
  deltaExitThreshold := 1/10
  replaceThresholdPct := 2/10
  latestMarkPrice := none
  latestUnleveredReturnPct := none
  latestLeveragedReturnPct := none

/-- C1: on the live path, exit triggers are evaluated in fixed precedence —
Liquidation (unlevered return ≤ liquidation threshold), then Take Profit
(unlevered return ≥ takeProfitPct × 100), then Delta Exit (latest sell ratio
minus entry sell ratio ≥ the position's delta threshold), then Time Exit
(only if maxHoldHours > 0 and the hold time reaches that many hours) — and
the first matching trigger wins; in particular a position satisfying both
the liquidation and take-profit thresholds exits with reason Liquidation
(first conjunct, which fires regardless of the take-profit condition). -/
theorem decideExit_fixed_precedence (cfg : StrategyCfg) (pos : OpenPositionRow)
    (unleveredPct nowTs : ℚ) (ratios : List RatioPoint) :
    (unleveredPct ≤ liquidationThresholdUnleveredPct pos.leverage →
      decideExit cfg pos unleveredPct nowTs ratios = some .LIQ) ∧
    (¬ unleveredPct ≤ liquidationThresholdUnleveredPct pos.leverage →
      pos.takeProfitPct * 100 ≤ unleveredPct →
      decideExit cfg pos unleveredPct nowTs ratios = some .TP) ∧
    (¬ unleveredPct ≤ liquidationThresholdUnleveredPct pos.leverage →
      ¬ pos.takeProfitPct * 100 ≤ unleveredPct →
      deltaCond pos ratios →
      decideExit cfg pos unleveredPct nowTs ratios = some .DELTA) ∧
    (¬ unleveredPct ≤ liquidationThresholdUnleveredPct pos.leverage →
      ¬ pos.takeProfitPct * 100 ≤ unleveredPct →
      ¬ deltaCond pos ratios →
      0 < cfg.maxHoldHours →
      cfg.maxHoldHours * HOUR_MS ≤ nowTs - pos.entryTsMs →
      decideExit cfg pos unleveredPct nowTs ratios = some .TIME) ∧
    (¬ unleveredPct ≤ liquidationThresholdUnleveredPct pos.leverage →
      ¬ pos.takeProfitPct * 100 ≤ unleveredPct →
      ¬ deltaCond pos ratios →
      ¬ (0 < cfg.maxHoldHours ∧ cfg.maxHoldHours * HOUR_MS ≤ nowTs - pos.entryTsMs) →
      decideExit cfg pos unleveredPct nowTs ratios = none) :=
  decideExit_cases cfg pos unleveredPct nowTs ratios

/-- C1 witness: a position whose unlevered return (-30) satisfies both the
liquidation threshold (-20 at leverage 5) and the (degenerate) take-profit
threshold (-50) exits with reason Liquidation. -/
theorem decideExit_fixed_precedence_witness :
    ((-30 : ℚ) ≤
        liquidationThresholdUnleveredPct
          ({ samplePos with takeProfitPct := -(1/2) } : OpenPositionRow).leverage) ∧
    (({ samplePos with takeProfitPct := -(1/2) } : OpenPositionRow).takeProfitPct * 100
        ≤ (-30 : ℚ)) ∧
    decideExit sampleCfg { samplePos with takeProfitPct := -(1/2) } (-30) 0 [] =
      some .LIQ :=
  ⟨by norm_num [liquidationThresholdUnleveredPct, samplePos],
    by norm_num [samplePos],
    (decideExit_fixed_precedence sampleCfg { samplePos with takeProfitPct := -(1/2) }
        (-30) 0 []).1
      (by norm_num [liquidationThresholdUnleveredPct, samplePos])⟩

/-! ### Downtime reconciliation (`evaluateDowntimeExit`, main.ts) -/

/-- A reconstructed exit candidate, as pushed onto the `candidates` array. -/
structure Candidate where
  reason : ExitReason
  exitTsMs : ℚ
  exitPrice : ℚ
  priority : ℕ
deriving DecidableEq, Repr

/-- The comparator of the candidate sort, `(a.exitTsMs - b.exitTsMs) ||
(a.priority - b.priority)` in the source: exit timestamp ascending, then
priority ascending. -/
def candLe (a b : Candidate) : Bool :=
  decide (a.exitTsMs < b.exitTsMs ∨ (a.exitTsMs = b.exitTsMs ∧ a.priority ≤ b.priority))

/-- Source function `priceAtTsFromKlines` from the engine: the close of the candle containing
the timestamp when that close is positive, else the close of the nearest
prior candle, else null. -/
def priceAtTsFromKlines (klines : List Kline) (tsMs : ℚ) : Option ℚ :=
  match klines.find? (fun k => decide (k.openTimeMs ≤ tsMs ∧ tsMs < k.openTimeMs + HOUR_MS)) with
  | some k => if 0 < k.close then some k.close else none
  | none =>
      match (klines.filter (fun k => decide (k.openTimeMs ≤ tsMs))).getLast? with
      | some k => if 0 < k.close then some k.close else none
      | none => none

/-- The chronological candle scan of `evaluateDowntimeExit`: the first
in-window candle whose high reaches the liquidation price or whose low
reaches the take-profit price yields a candidate (liquidation preferred
within the same candle), and the scan stops there. -/
def priceScanCandidate (pos : OpenPositionRow) (windowStart nowTs : ℚ)
    (klines : List Kline) : Option Candidate :=
  let liqPrice := pos.entryPrice * (1 + 1 / pos.leverage)
  let tpPrice := pos.entryPrice * (1 - pos.takeProfitPct)
  klines.findSome? fun candle =>
    let candleStart := candle.openTimeMs
    let candleEnd := candleStart + HOUR_MS
    if candleEnd ≤ windowStart ∨ nowTs < candleStart then none
    else if liqPrice ≤ candle.high then
      some ⟨.LIQ, min candleEnd nowTs, liqPrice, 1⟩
    else if candle.low ≤ tpPrice then
      some ⟨.TP, min candleEnd nowTs, tpPrice, 2⟩
    else none

/-- The time-exit candidate of `evaluateDowntimeExit`: present when the
max-hold deadline falls inside the window, priced from the candle containing
it (or the last candle's close, or the entry price as last resort). -/
def timeCandidate (cfg : StrategyCfg) (pos : OpenPositionRow)
    (windowStart nowTs : ℚ) (klines : List Kline) : Option Candidate :=
  if 0 < cfg.maxHoldHours then
    let timeTs := pos.entryTsMs + cfg.maxHoldHours * HOUR_MS
    if windowStart ≤ timeTs ∧ timeTs ≤ nowTs then
      let timePrice := (priceAtTsFromKlines klines timeTs).getD
        ((klines.getLast?.map Kline.close).getD pos.entryPrice)
      some ⟨.TIME, timeTs, timePrice, 4⟩
    else none
  else none

/-- The sentiment scan of `evaluateDowntimeExit`: the first in-window sample
whose sell-ratio delta versus the entry sell ratio reaches the threshold
yields a Delta candidate at that sample's timestamp. -/
def deltaCandidate (pos : OpenPositionRow) (windowStart nowTs : ℚ)
    (klines : List Kline) (ratios : List RatioPoint) : Option Candidate :=
  ratios.findSome? fun r =>
    if r.tsMs < windowStart ∨ nowTs < r.tsMs then none
    else
      match r.sellRatio with
      | none => none
      | some sr =>
          if pos.deltaExitThreshold ≤ sr - pos.entrySellRatio then
            let price := (priceAtTsFromKlines klines r.tsMs).getD
              ((klines.getLast?.map Kline.close).getD pos.entryPrice)
            some ⟨.DELTA, r.tsMs, price, 3⟩
          else none

/-- The full candidate list, in the push order of the source (price scan,
then time, then delta). -/
def buildCandidates (cfg : StrategyCfg) (pos : OpenPositionRow)
    (windowStart nowTs : ℚ) (klines : List Kline) (ratios : List RatioPoint) :
    List Candidate :=
  (priceScanCandidate pos windowStart nowTs klines).toList ++
  (timeCandidate cfg pos windowStart nowTs klines).toList ++
  (deltaCandidate pos windowStart nowTs klines ratios).toList

/-- The resolution step: stable-sort the candidates by (exit timestamp, then
priority) and select the first. -/
def resolveCandidates (cs : List Candidate) : Option Candidate :=
  (cs.mergeSort candLe).head?

/-- Start of the reconciliation window,
`Math.max(pos.entryTsMs, lastScanTs, nowTs - maxLookbackMs)`. -/
def downtimeWindowStart (cfg : StrategyCfg) (pos : OpenPositionRow)
    (lastScanTs nowTs : ℚ) : ℚ :=
  max (max pos.entryTsMs lastScanTs) (nowTs - cfg.downtimeLookbackHoursMax * HOUR_MS)

/-- A reconciled exit as returned by `evaluateDowntimeExit`. -/
structure DowntimeExit where
  reason : ExitReason
  exitTsMs : ℚ
  exitPrice : ℚ
deriving DecidableEq, Repr

/-- Source function `evaluateDowntimeExit` from the engine, with the fetched candles and
sentiment samples as parameters. -/
def evaluateDowntimeExit (cfg : StrategyCfg) (pos : OpenPositionRow)
    (lastScanTs nowTs : ℚ) (klines : List Kline) (ratios : List RatioPoint) :
    Option DowntimeExit :=
  let windowStart := downtimeWindowStart cfg pos lastScanTs nowTs
  if nowTs ≤ windowStart then none
  else if klines.isEmpty then none
  else
    (resolveCandidates (buildCandidates cfg pos windowStart nowTs klines ratios)).map
      fun c => ⟨c.reason, c.exitTsMs, c.exitPrice⟩

/-- Helper: the head of a `mergeSort` by a transitive total comparator is a
member of the list and a minimum under the comparator. -/
theorem head_mergeSort_min {α : Type} (le : α → α → Bool)
    (htrans : ∀ a b c, le a b → le b c → le a c)
    (htotal : ∀ a b, le a b || le b a)
    (l : List α) (c : α) (h : (l.mergeSort le).head? = some c) :
    c ∈ l ∧ ∀ d ∈ l, le c d := by
  have hperm := List.mergeSort_perm l le
  have hsorted := List.sorted_mergeSort htrans htotal l
  cases hms : l.mergeSort le with
  | nil => rw [hms] at h; simp at h
  | cons x xs =>
      rw [hms] at h
      simp only [List.head?_cons, Option.some.injEq] at h
      subst h
      rw [hms] at hperm hsorted
      have hx : ∀ d ∈ xs, le x d := (List.pairwise_cons.mp hsorted).1
      refine ⟨hperm.mem_iff.mp (List.mem_cons_self _ _), ?_⟩
      intro d hd
      have hd' : d ∈ x :: xs := hperm.mem_iff.mpr hd
      rcases List.mem_cons.mp hd' with rfl | hdxs
      · have := htotal d d
        simpa using this
      · exact hx d hdxs

/-- Helper: `candLe` is transitive. -/
theorem candLe_trans (a b c : Candidate) (hab : candLe a b) (hbc : candLe b c) :
    candLe a c := by
  simp only [candLe, decide_eq_true_eq] at hab hbc ⊢
  rcases hab with h1 | ⟨h1, h1'⟩ <;> rcases hbc with h2 | ⟨h2, h2'⟩
  · exact Or.inl (h1.trans h2)
  · exact Or.inl (h2 ▸ h1)
  · exact Or.inl (h1 ▸ h2)
  · exact Or.inr ⟨h1.trans h2, h1'.trans h2'⟩

/-- Helper: `candLe` is total. -/
theorem candLe_total (a b : Candidate) : candLe a b || candLe b a := by
  simp only [candLe, Bool.or_eq_true, decide_eq_true_eq]
  rcases lt_trichotomy a.exitTsMs b.exitTsMs with h | h | h
  · exact Or.inl (Or.inl h)
  · rcases Nat.le_total a.priority b.priority with hp | hp
    · exact Or.inl (Or.inr ⟨h, hp⟩)
    · exact Or.inr (Or.inr ⟨h.symm, hp⟩)
  · exact Or.inr (Or.inl h)

/-- C2: whenever the reconstructed candidate list is non-empty (and the
reconciliation window and candle fetch are non-degenerate, so the resolution
step is reached), the selected exit is a candidate that is first under the
ordering (exit timestamp ascending, then priority ascending) — in
particular, among candidates at the same timestamp the one with the lowest
priority number (Liquidation=1 < TakeProfit=2 < Delta=3 < Time=4) wins. -/
theorem downtime_first_by_ts_then_priority
    (cfg : StrategyCfg) (pos : OpenPositionRow) (lastScanTs nowTs : ℚ)
    (klines : List Kline) (ratios : List RatioPoint)
    (hwin : downtimeWindowStart cfg pos lastScanTs nowTs < nowTs)
    (hkl : klines ≠ [])
    (hcand : buildCandidates cfg pos (downtimeWindowStart cfg pos lastScanTs nowTs)
        nowTs klines ratios ≠ []) :
    ∃ c ∈ buildCandidates cfg pos (downtimeWindowStart cfg pos lastScanTs nowTs)
        nowTs klines ratios,
      evaluateDowntimeExit cfg pos lastScanTs nowTs klines ratios =
        some ⟨c.reason, c.exitTsMs, c.exitPrice⟩ ∧
      ∀ d ∈ buildCandidates cfg pos (downtimeWindowStart cfg pos lastScanTs nowTs)
          nowTs klines ratios,
        c.exitTsMs < d.exitTsMs ∨ (c.exitTsMs = d.exitTsMs ∧ c.priority ≤ d.priority) := by
  set cs := buildCandidates cfg pos (downtimeWindowStart cfg pos lastScanTs nowTs)
    nowTs klines ratios with hcs
  obtain ⟨c, hc⟩ : ∃ c, (cs.mergeSort candLe).head? = some c := by
    cases hms : cs.mergeSort candLe with
    | nil =>
        exact absurd (by simpa using congrArg List.length hms) (by simpa using hcand)
    | cons x xs => exact ⟨x, by simp⟩
  obtain ⟨hmem, hmin⟩ := head_mergeSort_min candLe candLe_trans candLe_total cs c hc
  refine ⟨c, hmem, ?_, ?_⟩
  · simp only [evaluateDowntimeExit]
    rw [if_neg (not_le.mpr hwin), if_neg (by simpa [List.isEmpty_iff] using hkl)]
    rw [← hcs, resolveCandidates, hc, Option.map_some']
  · intro d hd
    have := hmin d hd
    simpa [candLe] using this

/-- Candles for the C2 witness: the first hour both spikes through the
liquidation price and sets up a same-timestamp tie with the time exit. -/
def downtimeWitnessKlines : List Kline :=
  [⟨0, 100, 121, 95, 110, 0⟩, ⟨3600000, 110, 111, 100, 105, 0⟩]

/-- Config for the C2 witness: one-hour max hold. -/
def downtimeWitnessCfg : StrategyCfg := { sampleCfg with maxHoldHours := 1 }

/-- C2 witness: entry 100 at leverage 5 gives liquidation price 120; the
first candle's high (121) reaches it, producing a Liquidation candidate at
candle close 3600000, while the one-hour max hold produces a Time candidate
at the same timestamp 3600000 — the tie resolves to Liquidation. -/
theorem downtime_first_by_ts_then_priority_witness :
    downtimeWindowStart downtimeWitnessCfg samplePos 0 7200000 < 7200000 ∧
    downtimeWitnessKlines ≠ [] ∧
    buildCandidates downtimeWitnessCfg samplePos
      (downtimeWindowStart downtimeWitnessCfg samplePos 0 7200000) 7200000
      downtimeWitnessKlines [] ≠ [] ∧
    (∃ c ∈ buildCandidates downtimeWitnessCfg samplePos
        (downtimeWindowStart downtimeWitnessCfg samplePos 0 7200000) 7200000
        downtimeWitnessKlines [],
      evaluateDowntimeExit downtimeWitnessCfg samplePos 0 7200000
          downtimeWitnessKlines [] =
        some ⟨c.reason, c.exitTsMs, c.exitPrice⟩ ∧
      ∀ d ∈ buildCandidates downtimeWitnessCfg samplePos
          (downtimeWindowStart downtimeWitnessCfg samplePos 0 7200000) 7200000
          downtimeWitnessKlines [],
        c.exitTsMs < d.exitTsMs ∨ (c.exitTsMs = d.exitTsMs ∧ c.priority ≤ d.priority)) := by
  have h1 : downtimeWindowStart downtimeWitnessCfg samplePos 0 7200000 < 7200000 := by
    norm_num [downtimeWindowStart, downtimeWitnessCfg, sampleCfg, samplePos, HOUR_MS, max_def]
  have h2 : downtimeWitnessKlines ≠ [] := by simp [downtimeWitnessKlines]
  have h3 : buildCandidates downtimeWitnessCfg samplePos
      (downtimeWindowStart downtimeWitnessCfg samplePos 0 7200000) 7200000
      downtimeWitnessKlines [] ≠ [] := by
    norm_num [buildCandidates, priceScanCandidate, timeCandidate, deltaCandidate,
      downtimeWitnessKlines, downtimeWitnessCfg, sampleCfg, samplePos,
      downtimeWindowStart, priceAtTsFromKlines, HOUR_MS, max_def,
      List.findSome?_cons]
    simp
  exact ⟨h1, h2, h3,
    downtime_first_by_ts_then_priority downtimeWitnessCfg samplePos 0 7200000
      downtimeWitnessKlines [] h1 h2 h3⟩

/-- C10: the per-trigger enable flags of `strategy.exits` are never consulted
by exit evaluation — changing only those flags changes neither the live
`decideExit` result nor the `evaluateDowntimeExit` result — and a Time exit
is gated only by `maxHoldHours > 0`: it fires even when `timeEnabled` is
false. -/
theorem exit_flags_never_consulted (cfg : StrategyCfg) (e : ExitsCfg)
    (pos : OpenPositionRow) (unleveredPct nowTs lastScanTs : ℚ)
    (ratios : List RatioPoint) (klines : List Kline) :
    decideExit { cfg with exits := e } pos unleveredPct nowTs ratios =
      decideExit cfg pos unleveredPct nowTs ratios ∧
    evaluateDowntimeExit { cfg with exits := e } pos lastScanTs nowTs klines ratios =
      evaluateDowntimeExit cfg pos lastScanTs nowTs klines ratios ∧
    (cfg.exits.timeEnabled = false →
      ¬ unleveredPct ≤ liquidationThresholdUnleveredPct pos.leverage →
      ¬ pos.takeProfitPct * 100 ≤ unleveredPct →
      ¬ deltaCond pos ratios →
      0 < cfg.maxHoldHours →
      cfg.maxHoldHours * HOUR_MS ≤ nowTs - pos.entryTsMs →
      decideExit cfg pos unleveredPct nowTs ratios = some .TIME) :=
  ⟨rfl, rfl, fun _ h1 h2 h3 h4 h5 =>
    (decideExit_cases cfg pos unleveredPct nowTs ratios).2.2.2.1 h1 h2 h3 h4 h5⟩

/-- C10 witness: with `timeEnabled = false`, `maxHoldHours = 1` and a
one-hour hold, a position triggering no higher-priority exit still exits
with reason Time. -/
theorem exit_flags_never_consulted_witness :
    downtimeWitnessCfg.exits.timeEnabled = false ∧
    decideExit downtimeWitnessCfg samplePos 0 3600000 [] = some .TIME :=
  ⟨by simp [downtimeWitnessCfg, sampleCfg],
    (exit_flags_never_consulted downtimeWitnessCfg ⟨true, true, true, false⟩
        samplePos 0 3600000 0 [] []).2.2
      (by simp [downtimeWitnessCfg, sampleCfg])
      (by norm_num [liquidationThresholdUnleveredPct, samplePos])
      (by norm_num [samplePos])
      (by simp [deltaCond])
      (by norm_num [downtimeWitnessCfg, sampleCfg])
      (by norm_num [downtimeWitnessCfg, sampleCfg, samplePos, HOUR_MS])⟩

/-! ### Signal detection (`V16SignalDetector.detect`, signalDetector.ts) -/

/-- A fresh signal decision (`V16SignalDecision` in `domain/types.ts`). -/
structure V16SignalDecision where
  symbol : String
  closedHourStartMs : ℚ
  closedHourEndMs : ℚ
  closedHourVolume : ℚ
  signalSellRatio : ℚ
  closePrice : ℚ
  nextOpenPrice : ℚ
deriving DecidableEq, Repr

/-- Extraction of `klines[len-2]` (closed confirmation candle) and
`klines[len-1]` (current candle), null when fewer than 2 candles exist. -/
def lastTwo (l : List Kline) : Option (Kline × Kline) :=
  match l.drop (l.length - 2) with
  | [a, b] => some (a, b)
  | _ => none

/-- The detector's sentiment lookup: filter the fetched samples to
`[closedHourStart - 1h, closedHourEnd]`, stable-sort ascending by timestamp,
take the latest, and read its possibly-null sell ratio. -/
def latestWindowSellRatio (ratios : List RatioPoint) (startMs endMs : ℚ) : Option ℚ :=
  ((ratios.filter (fun r => decide (r.tsMs ≤ endMs ∧ startMs - HOUR_MS ≤ r.tsMs))).mergeSort
      (fun a b => decide (a.tsMs ≤ b.tsMs))).getLast?.bind RatioPoint.sellRatio

/-- Source method `V16SignalDetector.detect`, with the fetched candles and sentiment
samples as parameters: the close-confirm/next-open entry rule.  Every unmet
condition yields `none`, not an error. -/
def detect (cfg : StrategyCfg) (symbol : String) (klines : List Kline)
    (ratios : List RatioPoint) : Option V16SignalDecision :=
  match lastTwo klines with
  | none => none
  | some (closed, current) =>
      if current.openTimeMs ≤ closed.openTimeMs then none
      else
        let closedHourStartMs := closed.openTimeMs
        let closedHourEndMs := closedHourStartMs + HOUR_MS
        if ¬ cfg.minHourVolume ≤ closed.volume then none
        else
          match latestWindowSellRatio ratios closedHourStartMs closedHourEndMs with
          | none => none
          | some sellRatio =>
              if cfg.sellRatioMax < sellRatio then none
              else if current.openPrice ≤ 0 then none
              else
                some ⟨symbol, closedHourStartMs, closedHourEndMs, closed.volume,
                  sellRatio, closed.close, current.openPrice⟩

/-- Helper: `lastTwo` finds exactly the final two candles. -/
theorem lastTwo_eq_some_iff (l : List Kline) (a b : Kline) :
    lastTwo l = some (a, b) ↔ ∃ ks, l = ks ++ [a, b] := by
  unfold lastTwo
  constructor
  · intro h
    rcases hd : l.drop (l.length - 2) with _ | ⟨x, _ | ⟨y, _ | _⟩⟩ <;> rw [hd] at h
    · simp at h
    · simp at h
    · simp only [Option.some.injEq, Prod.mk.injEq] at h
      obtain ⟨rfl, rfl⟩ := h
      exact ⟨l.take (l.length - 2),
        by conv_lhs => rw [← List.take_append_drop (l.length - 2) l, hd]⟩
    · simp at h
  · rintro ⟨ks, rfl⟩
    have hlen : (ks ++ [a, b]).length - 2 = ks.length := by simp
    rw [hlen, List.drop_left]

/-- C4: signal detection produces a signal exactly when all conditions hold —
at least 2 candles (so the list ends in a closed and a current candle), the
closed candle's open time strictly precedes the current candle's, the closed
candle's volume reaches the configured minimum, the latest sentiment sample
with timestamp in `[closedHourStart - 1h, closedHourEnd]` exists with a
non-null sell ratio at most the configured maximum, and the current candle's
open price (the prospective entry) is positive; otherwise it yields `none`,
not an error. -/
theorem detect_signal_iff_conditions (cfg : StrategyCfg) (symbol : String)
    (klines : List Kline) (ratios : List RatioPoint) :
    (detect cfg symbol klines ratios).isSome = true ↔
      ∃ ks closed current, klines = ks ++ [closed, current] ∧
        closed.openTimeMs < current.openTimeMs ∧
        cfg.minHourVolume ≤ closed.volume ∧
        (∃ sr, latestWindowSellRatio ratios closed.openTimeMs
            (closed.openTimeMs + HOUR_MS) = some sr ∧ sr ≤ cfg.sellRatioMax) ∧
        0 < current.openPrice := by
  rcases hlt : lastTwo klines with _ | ⟨closed, current⟩
  · simp only [detect, hlt, Option.isSome_none]
    constructor
    · intro h; cases h
    · rintro ⟨ks, c1, c2, rfl, -⟩
      have := (lastTwo_eq_some_iff (ks ++ [c1, c2]) c1 c2).mpr ⟨ks, rfl⟩
      rw [hlt] at this
      cases this
  · obtain ⟨ks0, hks0⟩ := (lastTwo_eq_some_iff klines closed current).mp hlt
    simp only [detect, hlt]
    constructor
    · intro h
      refine ⟨ks0, closed, current, hks0, ?_⟩
      by_cases h1 : current.openTimeMs ≤ closed.openTimeMs
      · simp [h1] at h
      by_cases h2 : cfg.minHourVolume ≤ closed.volume
      case neg => simp [h1, h2] at h
      rcases hsr : latestWindowSellRatio ratios closed.openTimeMs
          (closed.openTimeMs + HOUR_MS) with - | sr
      · simp [h1, h2, hsr] at h
      by_cases h3 : cfg.sellRatioMax < sr
      · simp [h1, h2, hsr, h3] at h
      by_cases h4 : current.openPrice ≤ 0
      · simp [h1, h2, hsr, h3, h4] at h
      exact ⟨not_le.mp h1, h2, ⟨sr, rfl, not_lt.mp h3⟩, not_le.mp h4⟩
    · rintro ⟨ks, closed', current', hkl, hopen, hvol, ⟨sr, hsr, hsrle⟩, hprice⟩
      have hsame : lastTwo klines = some (closed', current') :=
        (lastTwo_eq_some_iff klines closed' current').mpr ⟨ks, hkl⟩
      rw [hlt] at hsame
      simp only [Option.some.injEq, Prod.mk.injEq] at hsame
      obtain ⟨rfl, rfl⟩ := hsame
      simp [not_le.mpr hopen, hvol, hsr, not_lt.mpr hsrle, not_le.mpr hprice]

/-- C4 witness: two in-order candles with sufficient closed volume, an
in-window sell-ratio sample of 1/2 (below the 6/10 maximum) and a positive
next-open price produce a signal. -/
theorem detect_signal_iff_conditions_witness :
    (detect sampleCfg "BTCUSDT"
      [⟨0, 95, 96, 94, 95, 2000⟩, ⟨3600000, 100, 101, 99, 100, 500⟩]
      [⟨0, some (1/2)⟩]).isSome = true :=
  (detect_signal_iff_conditions sampleCfg "BTCUSDT"
    [⟨0, 95, 96, 94, 95, 2000⟩, ⟨3600000, 100, 101, 99, 100, 500⟩]
    [⟨0, some (1/2)⟩]).mpr
    ⟨[], ⟨0, 95, 96, 94, 95, 2000⟩, ⟨3600000, 100, 101, 99, 100, 500⟩, rfl,
      by norm_num, by norm_num [sampleCfg],
      ⟨1/2, by norm_num [latestWindowSellRatio, HOUR_MS],
        by norm_num [sampleCfg]⟩,
      by norm_num⟩

/-! ### Signal handling (`handleSignal` / `selectWorstReplaceCandidate`, main.ts) -/

/-- Terminal signal outcomes (plus the silent skip when the signal row
already exists for the symbol/hour). -/
inductive SignalOutcome
  | SKIPPED_ALREADY_PROCESSED
  | MISSED_DUPLICATE
  | MISSED_INVALID_PRICE
  | MISSED_NO_CASH
  | MISSED_CAPACITY
  | OPENED
  | OPENED_REPLACEMENT
deriving DecidableEq, Repr

/-- The row passed to `store.openPosition` on acceptance. -/
structure NewPosition where
  symbol : String
  entryTsMs : ℚ
  signalHourStartMs : ℚ
  entryPrice : ℚ
  entrySellRatio : ℚ
  closedHourVolume : ℚ
  leverage : ℚ
  marginUsd : ℚ
  notionalUsd : ℚ
  qty : ℚ
  takeProfitPct : ℚ
  deltaExitThreshold : ℚ
  replaceThresholdPct : ℚ
deriving DecidableEq, Repr

/-- The externally visible effect of one `handleSignal` run: the terminal
outcome, the position closed with reason REPLACE (with its exit price) if a
replacement was made, and the position opened if the signal was accepted. -/
structure HandleResult where
  outcome : SignalOutcome
  closedReplacement : Option (OpenPositionRow × ℚ)
  openedPosition : Option NewPosition
deriving DecidableEq, Repr

/-- The replacement profitability metric: the configured basis applied to a
position's latest return, with null treated as 0. -/
def replaceMetric (cfg : StrategyCfg) (p : OpenPositionRow) : ℚ :=
  match cfg.replaceThresholdBasis with
  | .levered => p.latestLeveragedReturnPct.getD 0
  | .unlevered => p.latestUnleveredReturnPct.getD 0

/-- Source function `selectWorstReplaceCandidate`: stable-sort the open positions ascending
by the configured metric and return the first (worst), or null when there
are none. -/
def selectWorstReplaceCandidate (cfg : StrategyCfg)
    (openPositions : List OpenPositionRow) : Option OpenPositionRow :=
  (openPositions.mergeSort
    (fun a b => decide (replaceMetric cfg a ≤ replaceMetric cfg b))).head?

/-- The fields of the position opened for an accepted decision with the
computed margin (`store.openPosition` argument in `handleSignal`). -/
def openedPositionOf (cfg : StrategyCfg) (decision : V16SignalDecision)
    (marginUsd : ℚ) : NewPosition :=
  let notionalUsd := marginUsd * cfg.leverage
  { symbol := decision.symbol
    entryTsMs := decision.closedHourEndMs
    signalHourStartMs := decision.closedHourStartMs
    entryPrice := decision.nextOpenPrice
    entrySellRatio := decision.signalSellRatio
    closedHourVolume := decision.closedHourVolume
    leverage := cfg.leverage
    marginUsd := marginUsd
    notionalUsd := notionalUsd
    qty := qtyFromNotional notionalUsd decision.nextOpenPrice
    takeProfitPct := cfg.takeProfitPct
    deltaExitThreshold := cfg.deltaExitThreshold
    replaceThresholdPct := cfg.replaceThresholdPct }

/-- Source function `handleSignal` from the engine, with the store reads as parameters:
`existingSignal` is whether a signal row already exists for the
(symbol, hour-start); `openBySymbol` is what `getOpenPositionBySymbol`
would return; `cash`/`entryEquity` come from the live summary;
`openPositions` is the current open set. -/
def handleSignal (cfg : StrategyCfg) (decision : V16SignalDecision)
    (existingSignal : Bool) (openBySymbol : Option OpenPositionRow)
    (cash entryEquity : ℚ) (openPositions : List OpenPositionRow) : HandleResult :=
  if existingSignal then ⟨.SKIPPED_ALREADY_PROCESSED, none, none⟩
  else
    let openOnSame := if cfg.preventDuplicateSymbols then openBySymbol else none
    if openOnSame.isSome then ⟨.MISSED_DUPLICATE, none, none⟩
    else
      let marginUsd := min (min (entryEquity * cfg.entryMarginFraction)
        cfg.entryMarginCapUsd) cash
      if decision.nextOpenPrice ≤ 0 then ⟨.MISSED_INVALID_PRICE, none, none⟩
      else if marginUsd < cfg.minActiveCashUsd then ⟨.MISSED_NO_CASH, none, none⟩
      else if cfg.maxOpenPositions ≤ (openPositions.length : ℚ) then
        let replaced := selectWorstReplaceCandidate cfg openPositions
        let candidateMetric := match cfg.replaceThresholdBasis with
          | .levered => (replaced.bind OpenPositionRow.latestLeveragedReturnPct).getD 0
          | .unlevered => (replaced.bind OpenPositionRow.latestUnleveredReturnPct).getD 0
        match replaced with
        | none => ⟨.MISSED_CAPACITY, none, none⟩
        | some r =>
            if -(cfg.replaceThresholdPct * 100) < candidateMetric then
              ⟨.MISSED_CAPACITY, none, none⟩
            else
              ⟨.OPENED_REPLACEMENT, some (r, r.latestMarkPrice.getD r.entryPrice),
                some (openedPositionOf cfg decision marginUsd)⟩
      else ⟨.OPENED, none, some (openedPositionOf cfg decision marginUsd)⟩

/-- C3: when a signal passing the earlier checks arrives at capacity, the
engine takes as sole replacement candidate a worst open position under the
configured metric (first conjunct); if no candidate exists, or its metric
exceeds `-replaceThresholdPct×100`, the outcome is MISSED_CAPACITY with no
close and no open (second and third conjuncts); otherwise the candidate is
closed with reason REPLACE at its latest mark price (or entry price if never
marked) and the new position is opened (fourth conjunct). -/
theorem capacity_replacement_arbitration (cfg : StrategyCfg)
    (decision : V16SignalDecision) (openBySymbol : Option OpenPositionRow)
    (cash entryEquity : ℚ) (openPositions : List OpenPositionRow)
    (hdup : (if cfg.preventDuplicateSymbols then openBySymbol else none) = none)
    (hprice : 0 < decision.nextOpenPrice)
    (hcash : cfg.minActiveCashUsd ≤
      min (min (entryEquity * cfg.entryMarginFraction) cfg.entryMarginCapUsd) cash)
    (hcap : cfg.maxOpenPositions ≤ (openPositions.length : ℚ)) :
    (∀ r, selectWorstReplaceCandidate cfg openPositions = some r →
      r ∈ openPositions ∧
        ∀ p ∈ openPositions, replaceMetric cfg r ≤ replaceMetric cfg p) ∧
    (selectWorstReplaceCandidate cfg openPositions = none →
      handleSignal cfg decision false openBySymbol cash entryEquity openPositions =
        ⟨.MISSED_CAPACITY, none, none⟩) ∧
    (∀ r, selectWorstReplaceCandidate cfg openPositions = some r →
      -(cfg.replaceThresholdPct * 100) < replaceMetric cfg r →
      handleSignal cfg decision false openBySymbol cash entryEquity openPositions =
        ⟨.MISSED_CAPACITY, none, none⟩) ∧
    (∀ r, selectWorstReplaceCandidate cfg openPositions = some r →
      replaceMetric cfg r ≤ -(cfg.replaceThresholdPct * 100) →
      handleSignal cfg decision false openBySymbol cash entryEquity openPositions =
        ⟨.OPENED_REPLACEMENT, some (r, r.latestMarkPrice.getD r.entryPrice),
          some (openedPositionOf cfg decision
            (min (min (entryEquity * cfg.entryMarginFraction)
              cfg.entryMarginCapUsd) cash))⟩) := by
  have hpr : ¬ decision.nextOpenPrice ≤ 0 := not_le.mpr hprice
  have hnc : ¬ min (min (entryEquity * cfg.entryMarginFraction)
      cfg.entryMarginCapUsd) cash < cfg.minActiveCashUsd := not_lt.mpr hcash
  refine ⟨?_, ?_, ?_, ?_⟩
  · intro r hr
    obtain ⟨hm, hall⟩ := head_mergeSort_min
      (fun a b => decide (replaceMetric cfg a ≤ replaceMetric cfg b))
      (fun a b c hab hbc => by
        simp only [decide_eq_true_eq] at hab hbc ⊢
        exact hab.trans hbc)
      (fun a b => by
        simp only [Bool.or_eq_true, decide_eq_true_eq]
        exact le_total _ _)
      openPositions r hr
    exact ⟨hm, fun p hp => by simpa using hall p hp⟩
  · intro hnone
    simp [handleSignal, hdup, hpr, hnc, hcap, hnone]
  · intro r hr hgt
    cases hb : cfg.replaceThresholdBasis <;>
      rw [replaceMetric, hb] at hgt <;>
      simp [handleSignal, hdup, hpr, hnc, hcap, hr, hb, hgt]
  · intro r hr hle
    cases hb : cfg.replaceThresholdBasis <;>
      rw [replaceMetric, hb] at hle <;>
      simp [handleSignal, hdup, hpr, hnc, hcap, hr, hb, not_lt.mpr hle]

/-- Config for the C3 witness: capacity 1. -/
def replaceWitnessCfg : StrategyCfg := { sampleCfg with maxOpenPositions := 1 }

/-- The sole open position for the C3 witness: marked at 90 with latest
unlevered return -22%, worse than the -20% eviction bar. -/
def replaceWitnessPos : OpenPositionRow :=
  { samplePos with
    symbol := "ETHUSDT"
    latestMarkPrice := some 90
    latestUnleveredReturnPct := some (-22)
    latestLeveragedReturnPct := some (-110) }

/-- Decision used by the signal-handling witnesses. -/
def witnessDecision : V16SignalDecision :=
  ⟨"SOLUSDT", 0, 3600000, 2000, 1/2, 100, 100⟩

/-- C3 witness: at capacity 1 with basis `unlevered`, the sole open position
at -22% (threshold 20%) is evicted: the signal opens as a replacement and
the candidate is closed at its latest mark price 90. -/
theorem capacity_replacement_arbitration_witness :
    selectWorstReplaceCandidate replaceWitnessCfg [replaceWitnessPos] =
      some replaceWitnessPos ∧
    replaceMetric replaceWitnessCfg replaceWitnessPos ≤
      -(replaceWitnessCfg.replaceThresholdPct * 100) ∧
    replaceWitnessPos.latestMarkPrice.getD replaceWitnessPos.entryPrice = 90 ∧
    handleSignal replaceWitnessCfg witnessDecision false none 300 10000
        [replaceWitnessPos] =
      ⟨.OPENED_REPLACEMENT,
        some (replaceWitnessPos,
          replaceWitnessPos.latestMarkPrice.getD replaceWitnessPos.entryPrice),
        some (openedPositionOf replaceWitnessCfg witnessDecision
          (min (min (10000 * replaceWitnessCfg.entryMarginFraction)
            replaceWitnessCfg.entryMarginCapUsd) 300))⟩ := by
  have hsel : selectWorstReplaceCandidate replaceWitnessCfg [replaceWitnessPos] =
      some replaceWitnessPos := by
    simp [selectWorstReplaceCandidate]
  have hmet : replaceMetric replaceWitnessCfg replaceWitnessPos ≤
      -(replaceWitnessCfg.replaceThresholdPct * 100) := by
    norm_num [replaceMetric, replaceWitnessCfg, replaceWitnessPos, sampleCfg, samplePos]
  refine ⟨hsel, hmet, by norm_num [replaceWitnessPos, samplePos], ?_⟩
  exact (capacity_replacement_arbitration replaceWitnessCfg witnessDecision none
      300 10000 [replaceWitnessPos]
      (by simp [replaceWitnessCfg, sampleCfg])
      (by norm_num [witnessDecision])
      (by norm_num [replaceWitnessCfg, sampleCfg, min_def])
      (by norm_num [replaceWitnessCfg, sampleCfg])).2.2.2
    replaceWitnessPos hsel hmet

/-- C5: whenever `handleSignal` opens a position, its margin equals
`min(equity × entryMarginFraction, entryMarginCapUsd, cash)` with cash and
equity read from the live summary. -/
theorem margin_is_min_of_fraction_cap_cash (cfg : StrategyCfg)
    (decision : V16SignalDecision) (existingSignal : Bool)
    (openBySymbol : Option OpenPositionRow) (cash entryEquity : ℚ)
    (openPositions : List OpenPositionRow) (np : NewPosition)
    (h : (handleSignal cfg decision existingSignal openBySymbol cash entryEquity
        openPositions).openedPosition = some np) :
    np.marginUsd =
      min (min (entryEquity * cfg.entryMarginFraction) cfg.entryMarginCapUsd) cash := by
  simp only [handleSignal] at h
  repeat' split at h
  all_goals
    first
      | (simp at h
         done)
      | (simp at h
         subst h
         simp [openedPositionOf])

/-- C5 witness: margin cap 500, margin fraction 0.1, equity 10000, cash 300
give margin min(1000, 500, 300) = 300 on the opened position. -/
theorem margin_is_min_of_fraction_cap_cash_witness :
    ∃ np, (handleSignal sampleCfg witnessDecision false none 300 10000
        []).openedPosition = some np ∧
      np.marginUsd = min (min (10000 * sampleCfg.entryMarginFraction)
        sampleCfg.entryMarginCapUsd) 300 ∧
      np.marginUsd = 300 := by
  have h : (handleSignal sampleCfg witnessDecision false none 300 10000
      []).openedPosition =
      some (openedPositionOf sampleCfg witnessDecision
        (min (min (10000 * sampleCfg.entryMarginFraction)
          sampleCfg.entryMarginCapUsd) 300)) := by
    norm_num [handleSignal, sampleCfg, witnessDecision]
  refine ⟨_, h,
    margin_is_min_of_fraction_cap_cash sampleCfg witnessDecision false none
      300 10000 [] _ h, ?_⟩
  norm_num [openedPositionOf, sampleCfg, min_def]

/-! ### Error containment: scan loop vs. exit loop (main.ts)

In `scanAndHandleSignals` each symbol's detector call sits inside its own
try/catch, so a per-symbol failure is converted into a logged skip.  The
loop body of `evaluateOpenPositionsForExit` has no per-position try/catch:
an exception from a position's evaluation propagates out of the loop to
`runCycle`'s catch.  The two loops are modelled over the per-item outcomes
(`Except.error` is a thrown exception). -/

/-- The scan loop over a batch: errors are logged and skipped, `null`
decisions are skipped, and the surviving decisions are handled in order.
The function is total — no per-symbol error escapes. -/
def scanBatchOutcomes (results : List (Except String (Option V16SignalDecision))) :
    List V16SignalDecision :=
  results.filterMap fun r =>
    match r with
    | .error _ => none
    | .ok d => d

/-- The exit-evaluation loop over the open positions: the per-position
outcomes are sequenced without a catch, so the first error propagates and
the remaining positions are not processed. -/
def evaluateOpenLoop {α : Type} (steps : List (Except String α)) :
    Except String (List α) :=
  match steps with
  | [] => .ok []
  | .error e :: _ => .error e
  | .ok o :: rest => (evaluateOpenLoop rest).map (o :: ·)

/-- C6 counterexample: a failing first position aborts the exit loop — the
loop returns the error instead of continuing with the remaining position's
result, so a single position's failure is not contained to that item. -/
theorem position_error_aborts_exit_loop_cex :
    evaluateOpenLoop [Except.error "ticker_fetch_failed", Except.ok (1 : ℕ)] =
      Except.error "ticker_fetch_failed" ∧
    evaluateOpenLoop [Except.error "ticker_fetch_failed", Except.ok (1 : ℕ)] ≠
      Except.ok [1] :=
  ⟨rfl, by simp [evaluateOpenLoop]⟩

/-- C6 (amended): a failure in one symbol's signal detection is caught for
that symbol only and the scan continues with the remaining symbols; but a
failure in one open position's exit evaluation is not caught per-position —
it propagates out of the exit loop (aborting the cycle, which `runCycle`
reports as failed). -/
theorem scan_contained_position_propagates {α : Type} (e : String)
    (rest : List (Except String (Option V16SignalDecision)))
    (tail : List (Except String α)) :
    scanBatchOutcomes (Except.error e :: rest) = scanBatchOutcomes rest ∧
    evaluateOpenLoop (Except.error e :: tail) = Except.error e :=
  ⟨rfl, rfl⟩

/-! ### Cycle-level failure handling (`runCycle`, main.ts) -/

/-- The runtime continuity markers read/written by a cycle. -/
structure RuntimeKV where
  lastScanTs : ℚ
  lastSymbolRefreshTs : ℚ
deriving DecidableEq, Repr

/-- The result record of `runCycle`. -/
structure CycleResult where
  executed : Bool
  reason : Option String
deriving DecidableEq, Repr

/-- Injected outcomes of the fallible blocks a cycle runs, in order: the
symbol fetch/persist inside `refreshSymbolsIfNeeded`, the whole of
`evaluateOpenPositionsForExit`, the whole of `scanAndHandleSignals`, and
the final `setRuntimeValue` of the last-scan high-water timestamp. -/
structure CycleEffects where
  refreshFetch : Except String Unit
  evalPositions : Except String Unit
  scanSignals : Except String Unit
  writeLastScan : Except String Unit

/-- Source function `refreshSymbolsIfNeeded`: when due (forced, or the refresh interval has
elapsed), run the fallible fetch/persist block and advance the
symbol-refresh marker; otherwise leave the state untouched. -/
def refreshSymbolsIfNeeded (symbolRefreshIntervalMs : ℚ) (force : Bool)
    (now : ℚ) (eff : Except String Unit) (st : RuntimeKV) :
    Except String RuntimeKV :=
  if force ∨ symbolRefreshIntervalMs ≤ now - st.lastSymbolRefreshTs then
    match eff with
    | .error e => .error e
    | .ok _ => .ok { st with lastSymbolRefreshTs := now }
  else .ok st

/-- Source function `runCycle`: the in-progress guard, then the fallible steps in order
inside one try/catch; the catch reports `cycle_failed` leaving the state as
it was at the failure point; success writes the last-scan marker last. -/
def runCycle (symbolRefreshIntervalMs now : ℚ) (eff : CycleEffects)
    (inCycle : Bool) (st : RuntimeKV) : CycleResult × RuntimeKV :=
  if inCycle then (⟨false, some "cycle_in_progress"⟩, st)
  else
    match refreshSymbolsIfNeeded symbolRefreshIntervalMs false now eff.refreshFetch st with
    | .error _ => (⟨false, some "cycle_failed"⟩, st)
    | .ok st1 =>
        match eff.evalPositions with
        | .error _ => (⟨false, some "cycle_failed"⟩, st1)
        | .ok _ =>
            match eff.scanSignals with
            | .error _ => (⟨false, some "cycle_failed"⟩, st1)
            | .ok _ =>
                match eff.writeLastScan with
                | .error _ => (⟨false, some "cycle_failed"⟩, st1)
                | .ok _ => (⟨true, none⟩, { st1 with lastScanTs := now })

/-- C7 counterexample: when the due symbol refresh succeeds (advancing the
symbol-refresh runtime marker) and the final last-scan write then fails,
`runCycle` reports the failure but the runtime state is NOT left unchanged —
only the last-scan marker is; so "runtime state is left unchanged" is too
strong as stated. -/
theorem runCycle_state_change_cex :
    (runCycle 3600000 7200000 ⟨.ok (), .ok (), .ok (), .error "db_unreachable"⟩
        false ⟨0, 0⟩).1 = ⟨false, some "cycle_failed"⟩ ∧
    (runCycle 3600000 7200000 ⟨.ok (), .ok (), .ok (), .error "db_unreachable"⟩
        false ⟨0, 0⟩).2 ≠ (⟨0, 0⟩ : RuntimeKV) ∧
    (runCycle 3600000 7200000 ⟨.ok (), .ok (), .ok (), .error "db_unreachable"⟩
        false ⟨0, 0⟩).2.lastScanTs = (0 : ℚ) := by
  refine ⟨?_, ?_, ?_⟩ <;>
    norm_num [runCycle, refreshSymbolsIfNeeded, RuntimeKV.mk.injEq]

/-- Helper: a successful `refreshSymbolsIfNeeded` never touches the
last-scan marker. -/
theorem refresh_preserves_last_scan (intervalMs : ℚ) (force : Bool) (now : ℚ)
    (eff : Except String Unit) (st st1 : RuntimeKV)
    (hr : refreshSymbolsIfNeeded intervalMs force now eff st = Except.ok st1) :
    st1.lastScanTs = st.lastScanTs := by
  unfold refreshSymbolsIfNeeded at hr
  split at hr
  · rcases eff with e | u
    · simp at hr
    · simp only [Except.ok.injEq] at hr
      subst hr
      rfl
  · simp only [Except.ok.injEq] at hr
    subst hr
    rfl

/-- C7 (amended): whenever any step inside a (non-skipped) cycle fails,
`runCycle` returns executed = false with reason `cycle_failed`, and the
last-scan high-water timestamp is not advanced — so the next cycle retries
the same reconciliation window — though the symbol-refresh marker may
already have been advanced by a successful due refresh. -/
theorem runCycle_failure_preserves_last_scan (symbolRefreshIntervalMs now : ℚ)
    (eff : CycleEffects) (st : RuntimeKV)
    (h : (runCycle symbolRefreshIntervalMs now eff false st).1.executed = false) :
    (runCycle symbolRefreshIntervalMs now eff false st).1.reason =
      some "cycle_failed" ∧
    (runCycle symbolRefreshIntervalMs now eff false st).2.lastScanTs =
      st.lastScanTs := by
  obtain ⟨rf, ev, sc, wr⟩ := eff
  rcases hr : refreshSymbolsIfNeeded symbolRefreshIntervalMs false now rf st
      with e1 | st1
  · simp [runCycle, hr]
  · have hst1 := refresh_preserves_last_scan symbolRefreshIntervalMs false now
      rf st st1 hr
    rcases ev with e2 | u2
    · simp [runCycle, hr, hst1]
    rcases sc with e3 | u3
    · simp [runCycle, hr, hst1]
    rcases wr with e4 | u4
    · simp [runCycle, hr, hst1]
    · simp [runCycle, hr] at h

/-- C7 witness: a cycle whose final last-scan write fails (refresh not due)
reports `cycle_failed` and leaves the last-scan timestamp at its prior
value 5. -/
theorem runCycle_failure_preserves_last_scan_witness :
    (runCycle 3600000 0 ⟨.ok (), .ok (), .ok (), .error "db_unreachable"⟩
        false ⟨5, 0⟩).1.executed = false ∧
    ((runCycle 3600000 0 ⟨.ok (), .ok (), .ok (), .error "db_unreachable"⟩
        false ⟨5, 0⟩).1.reason = some "cycle_failed" ∧
      (runCycle 3600000 0 ⟨.ok (), .ok (), .ok (), .error "db_unreachable"⟩
        false ⟨5, 0⟩).2.lastScanTs = (⟨5, 0⟩ : RuntimeKV).lastScanTs) := by
  have h : (runCycle 3600000 0 ⟨.ok (), .ok (), .ok (), .error "db_unreachable"⟩
      false ⟨5, 0⟩).1.executed = false := by
    norm_num [runCycle, refreshSymbolsIfNeeded]
  exact ⟨h, runCycle_failure_preserves_last_scan 3600000 0
    ⟨.ok (), .ok (), .ok (), .error "db_unreachable"⟩ ⟨5, 0⟩ h⟩

end XspV16
